import Mathlib

/-!
Verification development for the PNG chunk codec in `pngmi`
(src/chunk_type.rs, src/chunk.rs, src/main.rs).

Bytes (`u8`) are embedded as `Nat` carrying the side condition `< 256`
where a statement needs it; `u32` values are `Nat` with explicit
`% 2 ^ 32` at the one place the source casts (`data.len() as u32`).
Fallible Rust code returning `PngResult` is embedded as `Except String`
(the source uses `Box<dyn Error>` built from string messages); code that
can also hit an uncatchable fault (slice indexing out of range,
`unwrap` on `Err`) is embedded in `PResult`, which has a dedicated
`panic` outcome distinct from the typed `error` results.
-/

/-- Outcome of a Rust computation that may return a typed `Result`
error or hit an uncatchable fault. `panic` models a Rust panic
(out-of-range slice indexing, failed `unwrap`/`assert`), `error` models
`Err(PngError)`, `ok` models `Ok`. -/
inductive PResult (α : Type) where
  | panic : PResult α
  | error : String → PResult α
  | ok : α → PResult α
deriving DecidableEq, Repr

instance {ε α : Type} [DecidableEq ε] [DecidableEq α] :
    DecidableEq (Except ε α) := fun x y =>
  match x, y with
  | .ok a, .ok b =>
    if h : a = b then isTrue (by rw [h]) else isFalse (by simp [h])
  | .error a, .error b =>
    if h : a = b then isTrue (by rw [h]) else isFalse (by simp [h])
  | .ok _, .error _ => isFalse (by simp)
  | .error _, .ok _ => isFalse (by simp)

/-- ChunkType from chunk_type.rs: wraps the 4 chunk-type bytes
(`chunk_type_bytes: [u8; 4]`). -/
structure ChunkType where
  chunk_type_bytes : List Nat
deriving DecidableEq, Repr

namespace ChunkType

/-- `ChunkType::bytes`: the byte array representation. -/
def bytes (ct : ChunkType) : List Nat :=
  ct.chunk_type_bytes

/-- The closure `byte_check` of `TryFrom<[u8; 4]> for ChunkType`:
`*b < 65 || *b > 122 || (*b > 90 && *b < 97)`. -/
def byte_check (b : Nat) : Bool :=
  b < 65 || b > 122 || (b > 90 && b < 97)

/-- `TryFrom<[u8; 4]> for ChunkType::try_from`: reject when any byte
fails `byte_check`, else wrap the bytes. -/
def try_from (value : List Nat) : Except String ChunkType :=
  if value.any byte_check then
    .error "Invalid chunk payload"
  else
    .ok { chunk_type_bytes := value }

/-- `ChunkType::is_critical`: `chunk_type_bytes[0] & 32 == 0`. -/
def is_critical (ct : ChunkType) : Bool :=
  ct.chunk_type_bytes.getD 0 0 &&& 32 == 0

/-- `ChunkType::is_public`: `chunk_type_bytes[1] & 32 == 0`. -/
def is_public (ct : ChunkType) : Bool :=
  ct.chunk_type_bytes.getD 1 0 &&& 32 == 0

/-- `ChunkType::is_reserved_bit_valid`: `chunk_type_bytes[2] & 32 == 0`. -/
def is_reserved_bit_valid (ct : ChunkType) : Bool :=
  ct.chunk_type_bytes.getD 2 0 &&& 32 == 0

/-- `ChunkType::is_safe_to_copy`: `chunk_type_bytes[3] & 32 != 0`. -/
def is_safe_to_copy (ct : ChunkType) : Bool :=
  ct.chunk_type_bytes.getD 3 0 &&& 32 != 0

/-- `ChunkType::is_valid`: delegates to `is_reserved_bit_valid`. -/
def is_valid (ct : ChunkType) : Bool :=
  ct.is_reserved_bit_valid

end ChunkType

/-- Modelled from the spec: one bit step of CRC-32/ISO-HDLC (the `crc`
crate with `CRC_32_ISO_HDLC` is outside this repository). Reflected
algorithm: if the low bit is set, shift right and xor with the
bit-reversed polynomial 0xEDB88320, else shift right. -/
def crc32_bit (c : Nat) : Nat :=
  if c % 2 = 1 then (c / 2) ^^^ 0xEDB88320 else c / 2

/-- Modelled from the spec: iterate `crc32_bit`. -/
def crc32_bits : Nat → Nat → Nat
  | c, 0 => c
  | c, n + 1 => crc32_bits (crc32_bit c) n

/-- Modelled from the spec: absorb one byte into the running CRC-32
state (xor the byte in, then 8 bit steps). -/
def crc32_byte (c b : Nat) : Nat :=
  crc32_bits (c ^^^ b) 8

/-- Modelled from the spec: absorb a byte sequence into the running
CRC-32 state, in order (the streaming `digest.update` of the source). -/
def crc32_update (c : Nat) (bs : List Nat) : Nat :=
  bs.foldl crc32_byte c

/-- Modelled from the spec: full CRC-32/ISO-HDLC of a byte sequence:
initial state 0xFFFFFFFF, absorb all bytes, final xor 0xFFFFFFFF
(`digest.finalize`). -/
def crc32 (bs : List Nat) : Nat :=
  crc32_update 0xFFFFFFFF bs ^^^ 0xFFFFFFFF

/-- `u32::from_be_bytes` on a 4-byte array: big-endian composition.
Call sites only ever pass 4-byte lists (the output of `read_4_bytes`). -/
def u32_from_be_bytes : List Nat → Nat
  | [a, b, c, d] => ((a * 256 + b) * 256 + c) * 256 + d
  | _ => 0

/-- `u32::to_be_bytes`: big-endian byte decomposition of a `u32`. -/
def u32_to_be_bytes (x : Nat) : List Nat :=
  [x / 2 ^ 24 % 256, x / 2 ^ 16 % 256, x / 2 ^ 8 % 256, x % 256]

/-- Chunk from chunk.rs: length, type, payload and checksum fields. -/
structure Chunk where
  length : Nat
  chunk_type : ChunkType
  data : List Nat
  checksum : Nat
deriving DecidableEq, Repr

namespace Chunk

/-- `Chunk::LENGTH_BYTES_LEN`. -/
def LENGTH_BYTES_LEN : Nat := 4

/-- `Chunk::CHUNK_TYPE_BYTES_LEN`. -/
def CHUNK_TYPE_BYTES_LEN : Nat := 4

/-- `Chunk::new`: store the payload length cast to `u32`
(`data.len() as u32`, hence `% 2 ^ 32`), the type, the payload, and the
CRC-32/ISO-HDLC digest of the type bytes followed by the payload. -/
def new (chunk_type : ChunkType) (data : List Nat) : Chunk :=
  { length := data.length % 2 ^ 32
    chunk_type := chunk_type
    data := data
    checksum := crc32 (chunk_type.bytes ++ data) }

/-- `Chunk::overall_length`: `self.length + 12`. -/
def overall_length (c : Chunk) : Nat :=
  c.length + 12

/-- `Chunk::as_bytes`: big-endian length bytes, then the type bytes,
then the payload, then the big-endian checksum bytes. -/
def as_bytes (c : Chunk) : List Nat :=
  u32_to_be_bytes c.length ++ c.chunk_type.bytes ++ c.data
    ++ u32_to_be_bytes c.checksum

end Chunk

/-- `read_4_bytes` from chunk.rs: `assert_eq!(end - start, 4)` (a panic
when it fails), then `&slice[start..end]` (a panic when the range is out
of bounds), then an infallible conversion of the 4-element slice to an
array. -/
def read_4_bytes (slice : List Nat) (start stop : Nat) : PResult (List Nat) :=
  if stop - start ≠ 4 then
    .panic
  else if start ≤ stop ∧ stop ≤ slice.length then
    .ok ((slice.drop start).take (stop - start))
  else
    .panic

namespace Chunk

/-- `TryFrom<&[u8]> for Chunk::try_from`: read the length and type
fields, validate the type, slice the payload as
`&value[data_start..data_end]` (a panic when `data_end` exceeds the
buffer), read the checksum field, rebuild the chunk with `Chunk::new`,
then compare checksums and lengths. -/
def try_from (value : List Nat) : PResult Chunk :=
  match read_4_bytes value 0 LENGTH_BYTES_LEN with
  | .panic => .panic
  | .error e => .error e
  | .ok length_bytes =>
    let length := u32_from_be_bytes length_bytes
    match read_4_bytes value CHUNK_TYPE_BYTES_LEN
        (CHUNK_TYPE_BYTES_LEN + LENGTH_BYTES_LEN) with
    | .panic => .panic
    | .error e => .error e
    | .ok type_bytes =>
      match ChunkType.try_from type_bytes with
      | .error e => .error e
      | .ok chunk_type =>
        let data_start := CHUNK_TYPE_BYTES_LEN + LENGTH_BYTES_LEN
        let data_end := data_start + length
        if value.length < data_end then
          .panic
        else
          let data := (value.drop data_start).take length
          match read_4_bytes value data_end (data_end + 4) with
          | .panic => .panic
          | .error e => .error e
          | .ok checksum_bytes =>
            let checksum := u32_from_be_bytes checksum_bytes
            let chunk := new chunk_type data
            if chunk.checksum ≠ checksum then
              .error "Incoming check does not match computed checksum"
            else if chunk.length ≠ length then
              .error "Incoming length does not match computed length"
            else
              .ok chunk

end Chunk

/-- Modelled from the spec: UTF-8 decoding of a byte sequence into
unicode scalar values, `none` on invalid input (`String::from_utf8` of
the Rust standard library is outside this repository; this follows
RFC 3629: no overlong forms, no surrogates, nothing above 0x10FFFF). -/
def utf8Decode : List Nat → Option (List Nat)
  | [] => some []
  | b :: rest =>
    if b < 0x80 then
      (utf8Decode rest).map (b :: ·)
    else if 0xC2 ≤ b ∧ b ≤ 0xDF then
      match rest with
      | c1 :: rest2 =>
        if 0x80 ≤ c1 ∧ c1 ≤ 0xBF then
          (utf8Decode rest2).map (((b - 0xC0) * 64 + (c1 - 0x80)) :: ·)
        else none
      | _ => none
    else if 0xE0 ≤ b ∧ b ≤ 0xEF then
      match rest with
      | c1 :: c2 :: rest3 =>
        if (if b = 0xE0 then 0xA0 ≤ c1 ∧ c1 ≤ 0xBF
            else if b = 0xED then 0x80 ≤ c1 ∧ c1 ≤ 0x9F
            else 0x80 ≤ c1 ∧ c1 ≤ 0xBF) ∧ 0x80 ≤ c2 ∧ c2 ≤ 0xBF then
          (utf8Decode rest3).map
            (((b - 0xE0) * 4096 + (c1 - 0x80) * 64 + (c2 - 0x80)) :: ·)
        else none
      | _ => none
    else if 0xF0 ≤ b ∧ b ≤ 0xF4 then
      match rest with
      | c1 :: c2 :: c3 :: rest4 =>
        if (if b = 0xF0 then 0x90 ≤ c1 ∧ c1 ≤ 0xBF
            else if b = 0xF4 then 0x80 ≤ c1 ∧ c1 ≤ 0x8F
            else 0x80 ≤ c1 ∧ c1 ≤ 0xBF) ∧ 0x80 ≤ c2 ∧ c2 ≤ 0xBF
            ∧ 0x80 ≤ c3 ∧ c3 ≤ 0xBF then
          (utf8Decode rest4).map
            (((b - 0xF0) * 262144 + (c1 - 0x80) * 4096 + (c2 - 0x80) * 64
              + (c3 - 0x80)) :: ·)
        else none
      | _ => none
    else none

namespace Chunk

/-- `Chunk::data_as_string`: `String::from_utf8(self.data.clone())`
mapped into the typed error result — fallible, never a panic. -/
def data_as_string (c : Chunk) : Except String (List Nat) :=
  match utf8Decode c.data with
  | some s => .ok s
  | none => .error "invalid utf-8"

/-- `Display for Chunk::fmt`:
`String::from_utf8(self.data.clone()).unwrap()` — the `unwrap` is a
panic when the payload is not valid UTF-8. -/
def fmt (c : Chunk) : PResult (List Nat) :=
  match utf8Decode c.data with
  | some s => .ok s
  | none => .panic

end Chunk

/-- The chunk type bytes of the test fixture "RuSt". -/
def rustType : ChunkType := { chunk_type_bytes := [82, 117, 83, 116] }

/-- The payload bytes of the test fixture literal
"This is where your secret message will be!". -/
def secretMsg : List Nat :=
  [84, 104, 105, 115, 32, 105, 115, 32, 119, 104, 101, 114, 101, 32,
   121, 111, 117, 114, 32, 115, 101, 99, 114, 101, 116, 32, 109, 101,
   115, 115, 97, 103, 101, 32, 119, 105, 108, 108, 32, 98, 101, 33]

/-- The serialized test fixture: length 42, type "RuSt", the secret
message payload, checksum 2882656334. -/
def rustBuf : List Nat :=
  u32_to_be_bytes 42 ++ [82, 117, 83, 116] ++ secretMsg
    ++ u32_to_be_bytes 2882656334

/-! ## Helper lemmas -/

theorem list_eq_four {l : List Nat} (h : l.length = 4) :
    ∃ a b c d, l = [a, b, c, d] := by
  match l, h with
  | [a, b, c, d], _ => exact ⟨a, b, c, d, rfl⟩

theorem u32_from_to {x : Nat} (h : x < 2 ^ 32) :
    u32_from_be_bytes (u32_to_be_bytes x) = x := by
  simp only [u32_to_be_bytes, u32_from_be_bytes]
  omega

theorem u32_to_from {a b c d : Nat} (ha : a < 256) (hb : b < 256)
    (hc : c < 256) (hd : d < 256) :
    u32_to_be_bytes (u32_from_be_bytes [a, b, c, d]) = [a, b, c, d] := by
  simp only [u32_to_be_bytes, u32_from_be_bytes, List.cons.injEq, and_true]
  refine ⟨?_, ?_, ?_, ?_⟩ <;> omega

theorem u32_from_lt {a b c d : Nat} (ha : a < 256) (hb : b < 256)
    (hc : c < 256) (hd : d < 256) :
    u32_from_be_bytes [a, b, c, d] < 2 ^ 32 := by
  simp only [u32_from_be_bytes]
  omega

theorem u32_to_mem_lt {x b : Nat} (h : b ∈ u32_to_be_bytes x) : b < 256 := by
  simp only [u32_to_be_bytes, List.mem_cons, List.not_mem_nil, or_false] at h
  rcases h with h | h | h | h <;> omega

theorem u32_to_len (x : Nat) : (u32_to_be_bytes x).length = 4 := rfl

theorem crc32_bit_lt {c : Nat} (h : c < 2 ^ 32) : crc32_bit c < 2 ^ 32 := by
  unfold crc32_bit
  split
  · exact Nat.xor_lt_two_pow (by omega) (by norm_num)
  · omega

theorem crc32_bits_lt (n : Nat) {c : Nat} (h : c < 2 ^ 32) :
    crc32_bits c n < 2 ^ 32 := by
  induction n generalizing c with
  | zero => exact h
  | succ n ih => exact ih (crc32_bit_lt h)

theorem crc32_update_lt {bs : List Nat} {c : Nat} (h : c < 2 ^ 32)
    (hb : ∀ b ∈ bs, b < 256) : crc32_update c bs < 2 ^ 32 := by
  induction bs generalizing c with
  | nil => exact h
  | cons x xs ih =>
    exact ih
      (crc32_bits_lt 8 (Nat.xor_lt_two_pow h
        (lt_trans (hb x (List.mem_cons_self x xs)) (by norm_num))))
      (fun b hbmem => hb b (List.mem_cons_of_mem x hbmem))

theorem crc32_lt {bs : List Nat} (hb : ∀ b ∈ bs, b < 256) :
    crc32 bs < 2 ^ 32 :=
  Nat.xor_lt_two_pow (crc32_update_lt (by norm_num) hb) (by norm_num)

theorem xor_pow_ne {x k : Nat} : x ^^^ 2 ^ k ≠ x := by
  intro h
  have h2 : x ^^^ (x ^^^ 2 ^ k) = x ^^^ x := congrArg (x ^^^ ·) h
  rw [Nat.xor_cancel_left, Nat.xor_self] at h2
  exact Nat.pos_iff_ne_zero.mp (Nat.pos_pow_of_pos k (by norm_num)) h2

theorem and32_eq_zero_iff (b : Nat) : b &&& 32 = 0 ↔ b.testBit 5 = false := by
  rw [show (32 : Nat) = 2 ^ 5 by norm_num, Nat.and_two_pow]
  cases h : b.testBit 5 <;> simp [h]

theorem chunktype_ok_bytes {v : List Nat} {ct : ChunkType}
    (h : ChunkType.try_from v = .ok ct) : ct.chunk_type_bytes = v := by
  unfold ChunkType.try_from at h
  split at h
  · exact absurd h (by simp)
  · cases h
    rfl

theorem chunktype_error_msg {v : List Nat} {e : String}
    (h : ChunkType.try_from v = .error e) : e = "Invalid chunk payload" := by
  unfold ChunkType.try_from at h
  split at h
  · cases h
    rfl
  · exact absurd h (by simp)

theorem chunktype_ok_of_bytes {v : List Nat} {ct : ChunkType}
    (h : ChunkType.try_from v = .ok ct) :
    ChunkType.try_from ct.chunk_type_bytes = .ok ct := by
  rw [chunktype_ok_bytes h]
  exact h

theorem chunktype_ok_mem_lt {v : List Nat} {ct : ChunkType}
    (h : ChunkType.try_from v = .ok ct) : ∀ b ∈ v, b < 256 := by
  intro b hbmem
  unfold ChunkType.try_from at h
  split at h
  · exact absurd h (by simp)
  · rename_i hany
    have hbc : ¬ ChunkType.byte_check b = true := by
      intro hbad
      exact hany (List.any_eq_true.mpr ⟨b, hbmem, hbad⟩)
    simp only [ChunkType.byte_check, Bool.or_eq_true, decide_eq_true_eq,
      Bool.and_eq_true, not_or] at hbc
    omega

theorem chunk_new_length (ct : ChunkType) (data : List Nat) :
    (Chunk.new ct data).length = data.length % 2 ^ 32 := rfl

theorem byte_check_false_iff (b : Nat) :
    ChunkType.byte_check b = false ↔
      (65 ≤ b ∧ b ≤ 122 ∧ ¬(90 < b ∧ b < 97)) := by
  simp only [ChunkType.byte_check, Bool.or_eq_false_iff,
    decide_eq_false_iff_not, Bool.and_eq_false_iff, not_lt]
  omega

theorem any_byte_check_false_iff (v : List Nat) :
    v.any ChunkType.byte_check = false ↔
      ∀ b ∈ v, 65 ≤ b ∧ b ≤ 122 ∧ ¬(90 < b ∧ b < 97) := by
  rw [List.any_eq_false]
  constructor
  · intro h b hbmem
    exact (byte_check_false_iff b).mp (by simpa using h b hbmem)
  · intro h b hbmem
    simpa using (byte_check_false_iff b).mpr (h b hbmem)

/-! ## Claim theorems -/

/-- C1: the claim requires a typed, recoverable bounds error on buffers
shorter than the layout demands; the code instead panics. On the 4-byte
buffer [0, 0, 0, 0] (declared payload length 0, so 12 bytes are
required) parsing hits an out-of-range slice when reading the
chunk-type field and panics instead of returning an error. -/
theorem spec_c1_short_buffer_panics :
    Chunk.try_from [0, 0, 0, 0] = PResult.panic := by decide

/-- C5: constructing a ChunkType from raw bytes succeeds exactly when
every byte is an ASCII letter (65-90 or 97-122); when some byte
violates the check the result is the error "Invalid chunk payload"; on
success the wrapped bytes equal the input. -/
theorem spec_c5_chunk_type_validation (v : List Nat) :
    ((∃ ct, ChunkType.try_from v = .ok ct) ↔
      ∀ b ∈ v, 65 ≤ b ∧ b ≤ 122 ∧ ¬(90 < b ∧ b < 97)) ∧
    ((¬ ∀ b ∈ v, 65 ≤ b ∧ b ≤ 122 ∧ ¬(90 < b ∧ b < 97)) →
      ChunkType.try_from v = .error "Invalid chunk payload") ∧
    (∀ ct, ChunkType.try_from v = .ok ct → ct.bytes = v) := by
  refine ⟨⟨?_, ?_⟩, ?_, ?_⟩
  · rintro ⟨ct, h⟩
    unfold ChunkType.try_from at h
    split at h
    · exact absurd h (by simp)
    · rename_i hany
      exact (any_byte_check_false_iff v).mp (by simpa using hany)
  · intro h
    refine ⟨{ chunk_type_bytes := v }, ?_⟩
    unfold ChunkType.try_from
    rw [if_neg]
    simp [(any_byte_check_false_iff v).mpr h]
  · intro h
    have htrue : v.any ChunkType.byte_check = true := by
      by_contra hc
      exact h ((any_byte_check_false_iff v).mp (by simpa using hc))
    unfold ChunkType.try_from
    rw [if_pos htrue]
  · intro ct h
    simpa [ChunkType.bytes] using chunktype_ok_bytes h

/-- C5 witness: "Ru1t" fails with the expected message; "RuSt"
succeeds with the bytes preserved. -/
theorem spec_c5_witness :
    ChunkType.try_from [82, 117, 49, 116] = .error "Invalid chunk payload" ∧
    ChunkType.bytes rustType = [82, 117, 83, 116] :=
  ⟨(spec_c5_chunk_type_validation [82, 117, 49, 116]).2.1 (by decide),
   (spec_c5_chunk_type_validation [82, 117, 83, 116]).2.2 rustType (by decide)⟩

/-- C6: the four chunk-type flags are exactly bit 5 (mask 0x20) tests
of bytes 0 to 3 (clear for critical, public and reserved-bit-valid, set
for safe-to-copy), and overall validity equals reserved-bit validity
alone. -/
theorem spec_c6_flag_bits (ct : ChunkType) :
    (ct.is_critical = true ↔ (ct.bytes.getD 0 0).testBit 5 = false) ∧
    (ct.is_public = true ↔ (ct.bytes.getD 1 0).testBit 5 = false) ∧
    (ct.is_reserved_bit_valid = true ↔
      (ct.bytes.getD 2 0).testBit 5 = false) ∧
    (ct.is_safe_to_copy = true ↔ (ct.bytes.getD 3 0).testBit 5 = true) ∧
    ct.is_valid = ct.is_reserved_bit_valid := by
  refine ⟨?_, ?_, ?_, ?_, rfl⟩
  · simp only [ChunkType.is_critical, ChunkType.bytes, beq_iff_eq,
      and32_eq_zero_iff]
  · simp only [ChunkType.is_public, ChunkType.bytes, beq_iff_eq,
      and32_eq_zero_iff]
  · simp only [ChunkType.is_reserved_bit_valid, ChunkType.bytes, beq_iff_eq,
      and32_eq_zero_iff]
  · simp only [ChunkType.is_safe_to_copy, ChunkType.bytes, bne_iff_ne,
      ne_eq, and32_eq_zero_iff, Bool.not_eq_false]

set_option maxRecDepth 10000 in
/-- C7: the fixture chunk built from type "RuSt" and the 42-byte
payload "This is where your secret message will be!" has length 42 and
CRC-32 checksum 2882656334. -/
theorem spec_c7_fixture :
    ChunkType.try_from [82, 117, 83, 116] = .ok rustType ∧
    secretMsg.length = 42 ∧
    (Chunk.new rustType secretMsg).length = 42 ∧
    (Chunk.new rustType secretMsg).checksum = 2882656334 := by decide

set_option maxRecDepth 10000 in
/-- C8: rendering the payload as text: `data_as_string` is fallible as
claimed (typed error on invalid UTF-8), but the Display implementation
unwraps the UTF-8 decoding and panics on the invalid-UTF-8 payload
[195, 40], contradicting the claim that no rendering path fails
unrecoverably. -/
theorem spec_c8_rendering_paths :
    Chunk.data_as_string (Chunk.new rustType [195, 40])
      = .error "invalid utf-8" ∧
    Chunk.fmt (Chunk.new rustType [195, 40]) = PResult.panic ∧
    Chunk.data_as_string (Chunk.new rustType [82, 117])
      = .ok [82, 117] := by decide

/-- C10: `Chunk::new` stores `data.len() as u32`: for payloads of at
least 2 ^ 32 bytes the stored length is the byte count modulo 2 ^ 32
(silent truncation), and the length-equals-byte-count invariant holds
exactly under the precondition that the payload is shorter than
2 ^ 32 bytes. -/
theorem spec_c10_length_truncation (ct : ChunkType) (data : List Nat) :
    (2 ^ 32 ≤ data.length →
      (Chunk.new ct data).length = data.length % 2 ^ 32) ∧
    (data.length < 2 ^ 32 → (Chunk.new ct data).length = data.length) := by
  constructor
  · intro _
    rfl
  · intro h
    simp only [Chunk.new]
    exact Nat.mod_eq_of_lt h

/-- C10 witness: a payload of exactly 2 ^ 32 zero bytes is truncated
to stored length 0, and a 1-byte payload keeps its length. -/
theorem spec_c10_witness :
    (Chunk.new rustType (List.replicate (2 ^ 32) 0)).length
      = (List.replicate (2 ^ 32) 0).length % 2 ^ 32 ∧
    (Chunk.new rustType [7]).length = [7].length :=
  ⟨(spec_c10_length_truncation rustType (List.replicate (2 ^ 32) 0)).1
      (by simp only [List.length_replicate, le_refl]),
   (spec_c10_length_truncation rustType [7]).2 (by decide)⟩

/-- C3 counterexample: for the payload of 2 ^ 32 zero bytes, the
stored length field of the constructed chunk is 0, not the payload
byte count 2 ^ 32, so the claimed invariant fails without a size
precondition. -/
theorem spec_c3_counterexample :
    (Chunk.new rustType (List.replicate (2 ^ 32) 0)).length
      ≠ (List.replicate (2 ^ 32) 0).length := by
  intro h
  rw [chunk_new_length, List.length_replicate, Nat.mod_self] at h
  exact absurd h.symm (by decide)
theorem read_4_bytes_at (v : List Nat) (s stop : Nat) (h4 : stop - s = 4)
    (hs : s ≤ stop) (hle : stop ≤ v.length) :
    read_4_bytes v s stop = .ok ((v.drop s).take 4) := by
  unfold read_4_bytes
  rw [if_neg (by omega), if_pos ⟨hs, hle⟩, h4]

theorem try_from_layout (lb tb data cb : List Nat)
    (hlb : lb.length = 4) (htb : tb.length = 4) (hcb : cb.length = 4)
    (hlen : u32_from_be_bytes lb = data.length) :
    Chunk.try_from (lb ++ tb ++ data ++ cb) =
      match ChunkType.try_from tb with
      | .error e => .error e
      | .ok ct =>
        if (Chunk.new ct data).checksum ≠ u32_from_be_bytes cb then
          .error "Incoming check does not match computed checksum"
        else if (Chunk.new ct data).length ≠ u32_from_be_bytes lb then
          .error "Incoming length does not match computed length"
        else
          .ok (Chunk.new ct data) := by
  obtain ⟨a0, a1, a2, a3, rfl⟩ := list_eq_four hlb
  obtain ⟨t0, t1, t2, t3, rfl⟩ := list_eq_four htb
  obtain ⟨c0, c1, c2, c3, rfl⟩ := list_eq_four hcb
  have hVlen : ([a0, a1, a2, a3] ++ [t0, t1, t2, t3] ++ data
      ++ [c0, c1, c2, c3]).length = 12 + data.length := by
    simp [List.length_append]
    omega
  have h1 : read_4_bytes ([a0, a1, a2, a3] ++ [t0, t1, t2, t3] ++ data
      ++ [c0, c1, c2, c3]) 0 Chunk.LENGTH_BYTES_LEN = .ok [a0, a1, a2, a3] := by
    rw [read_4_bytes_at _ _ _ (by decide) (by decide)
      (by rw [hVlen]; simp only [Chunk.LENGTH_BYTES_LEN]; omega)]
    rfl
  have h2 : read_4_bytes ([a0, a1, a2, a3] ++ [t0, t1, t2, t3] ++ data
      ++ [c0, c1, c2, c3]) Chunk.CHUNK_TYPE_BYTES_LEN
      (Chunk.CHUNK_TYPE_BYTES_LEN + Chunk.LENGTH_BYTES_LEN)
      = .ok [t0, t1, t2, t3] := by
    rw [read_4_bytes_at _ _ _ (by decide) (by decide)
      (by rw [hVlen]
          simp only [Chunk.LENGTH_BYTES_LEN, Chunk.CHUNK_TYPE_BYTES_LEN]
          omega)]
    rfl
  have hdrop8 : ([a0, a1, a2, a3] ++ [t0, t1, t2, t3] ++ data
      ++ [c0, c1, c2, c3]).drop 8 = data ++ [c0, c1, c2, c3] := rfl
  have hdropcs : ([a0, a1, a2, a3] ++ [t0, t1, t2, t3] ++ data
      ++ [c0, c1, c2, c3]).drop (8 + data.length) = [c0, c1, c2, c3] := by
    rw [← List.drop_drop, hdrop8, List.drop_left]
  have h3 : read_4_bytes ([a0, a1, a2, a3] ++ [t0, t1, t2, t3] ++ data
      ++ [c0, c1, c2, c3]) (8 + data.length) (8 + data.length + 4)
      = .ok [c0, c1, c2, c3] := by
    rw [read_4_bytes_at _ _ _ (by omega) (by omega) (by omega), hdropcs]
    rfl
  unfold Chunk.try_from
  rw [h1, h2]
  dsimp only [Chunk.CHUNK_TYPE_BYTES_LEN, Chunk.LENGTH_BYTES_LEN]
  cases hct : ChunkType.try_from [t0, t1, t2, t3] with
  | error e => rfl
  | ok ct =>
    dsimp only
    rw [hlen]
    split
    · rename_i hlt
      exact absurd hlt (by omega)
    · rw [show (4 : Nat) + 4 = 8 from rfl, h3]
      dsimp only
      rw [hdrop8, List.take_left]

theorem chunk_new_chunk_type (ct : ChunkType) (data : List Nat) :
    (Chunk.new ct data).chunk_type = ct := rfl

theorem chunk_new_data (ct : ChunkType) (data : List Nat) :
    (Chunk.new ct data).data = data := rfl

theorem chunk_new_checksum (ct : ChunkType) (data : List Nat) :
    (Chunk.new ct data).checksum = crc32 (ct.bytes ++ data) := rfl

theorem u32_to_from_list {l : List Nat} (h4 : l.length = 4)
    (hb : ∀ b ∈ l, b < 256) :
    u32_to_be_bytes (u32_from_be_bytes l) = l := by
  obtain ⟨a, b, c, d, rfl⟩ := list_eq_four h4
  exact u32_to_from (hb a (by simp)) (hb b (by simp)) (hb c (by simp))
    (hb d (by simp))

theorem u32_from_lt_list {l : List Nat} (h4 : l.length = 4)
    (hb : ∀ b ∈ l, b < 256) :
    u32_from_be_bytes l < 2 ^ 32 := by
  obtain ⟨a, b, c, d, rfl⟩ := list_eq_four h4
  exact u32_from_lt (hb a (by simp)) (hb b (by simp)) (hb c (by simp))
    (hb d (by simp))

theorem buffer_decomp (value : List Nat) (L : Nat) :
    value = value.take 4 ++ (value.drop 4).take 4
      ++ (value.drop 8).take L ++ value.drop (8 + L) := by
  rw [List.append_assoc, List.append_assoc]
  have s1 : value.take 4 ++ value.drop 4 = value := List.take_append_drop 4 value
  have s2 : (value.drop 4).take 4 ++ (value.drop 4).drop 4 = value.drop 4 :=
    List.take_append_drop 4 (value.drop 4)
  have s3 : (value.drop 4).drop 4 = value.drop 8 := by
    rw [List.drop_drop]
  have s4 : (value.drop 8).take L ++ (value.drop 8).drop L = value.drop 8 :=
    List.take_append_drop L (value.drop 8)
  have s5 : (value.drop 8).drop L = value.drop (8 + L) := by
    rw [List.drop_drop]
  rw [s5] at s4
  rw [s3] at s2
  rw [← s4] at s2
  rw [← s2] at s1
  exact s1.symm
/-- C2: serialization and parsing are mutually inverse. For any byte
buffer of exactly 12 plus its declared length on which parsing
succeeds, serializing the result reproduces the buffer; and for any
validly constructed ChunkType and payload shorter than 2 ^ 32 bytes,
parsing the serialization of the freshly built chunk succeeds and
returns that exact chunk (same length, type, data, checksum). -/
theorem spec_c2_roundtrip :
    (∀ (value : List Nat) (c : Chunk),
        (∀ b ∈ value, b < 256) →
        value.length = 12 + u32_from_be_bytes (value.take 4) →
        Chunk.try_from value = .ok c →
        c.as_bytes = value) ∧
    (∀ (tb : List Nat) (ct : ChunkType) (data : List Nat),
        tb.length = 4 →
        ChunkType.try_from tb = .ok ct →
        (∀ b ∈ data, b < 256) →
        data.length < 2 ^ 32 →
        Chunk.try_from (Chunk.new ct data).as_bytes
          = .ok (Chunk.new ct data)) := by
  constructor
  · intro value c hb hvlen hok
    have hL4 : (value.take 4).length = 4 := by
      rw [List.length_take]; omega
    have htb4 : ((value.drop 4).take 4).length = 4 := by
      rw [List.length_take, List.length_drop]; omega
    have hdata_len :
        ((value.drop 8).take (u32_from_be_bytes (value.take 4))).length
          = u32_from_be_bytes (value.take 4) := by
      rw [List.length_take, List.length_drop]; omega
    have hcb4 :
        (value.drop (8 + u32_from_be_bytes (value.take 4))).length = 4 := by
      rw [List.length_drop]; omega
    rw [buffer_decomp value (u32_from_be_bytes (value.take 4))] at hok
    rw [try_from_layout _ _ _ _ hL4 htb4 hcb4 hdata_len.symm] at hok
    cases hct : ChunkType.try_from ((value.drop 4).take 4) with
    | error e =>
      rw [hct] at hok
      exact absurd hok (by simp)
    | ok ct =>
      rw [hct] at hok
      dsimp only at hok
      split at hok
      · exact absurd hok (by simp)
      · split at hok
        · exact absurd hok (by simp)
        · rename_i hcs hlen2
          rw [not_ne_iff] at hcs hlen2
          have hc : c = Chunk.new ct
              ((value.drop 8).take (u32_from_be_bytes (value.take 4))) := by
            cases hok
            rfl
          subst hc
          have hctb : ct.bytes = (value.drop 4).take 4 := by
            simpa [ChunkType.bytes] using chunktype_ok_bytes hct
          simp only [Chunk.as_bytes, chunk_new_chunk_type, chunk_new_data]
          rw [hlen2, hcs, hctb]
          rw [u32_to_from_list hL4
            (fun b hbm => hb b (List.mem_of_mem_take hbm))]
          rw [u32_to_from_list hcb4
            (fun b hbm => hb b (List.mem_of_mem_drop hbm))]
          exact (buffer_decomp value (u32_from_be_bytes (value.take 4))).symm
  · intro tb ct data htb4 hct hdb h32
    have hctb : ct.bytes = tb := by
      simpa [ChunkType.bytes] using chunktype_ok_bytes hct
    have hctb4 : ct.bytes.length = 4 := by
      rw [hctb]; exact htb4
    have hclen : (Chunk.new ct data).length = data.length := by
      rw [chunk_new_length]; exact Nat.mod_eq_of_lt h32
    have hcrc_lt : crc32 (ct.bytes ++ data) < 2 ^ 32 := by
      apply crc32_lt
      intro b hbm
      rcases List.mem_append.mp hbm with hm | hm
      · rw [hctb] at hm
        exact chunktype_ok_mem_lt hct b (hctb ▸ hm)
      · exact hdb b hm
    have hbytes : (Chunk.new ct data).as_bytes
        = u32_to_be_bytes data.length ++ ct.bytes ++ data
          ++ u32_to_be_bytes (crc32 (ct.bytes ++ data)) := by
      simp only [Chunk.as_bytes, chunk_new_chunk_type, chunk_new_data,
        chunk_new_checksum, hclen]
    rw [hbytes]
    rw [try_from_layout _ _ _ _ (u32_to_len _) hctb4 (u32_to_len _)
      (u32_from_to h32)]
    have hTF : ChunkType.try_from ct.bytes = .ok ct := by
      rw [hctb]; exact hct
    rw [hTF]
    dsimp only
    rw [chunk_new_checksum, u32_from_to hcrc_lt, if_neg (by simp),
      hclen, u32_from_to h32, if_neg (by simp)]
theorem try_from_layout_tail (lb tb data cb rest : List Nat)
    (hlb : lb.length = 4) (htb : tb.length = 4) (hcb : cb.length = 4)
    (hlen : u32_from_be_bytes lb = data.length) :
    Chunk.try_from (lb ++ tb ++ data ++ cb ++ rest) =
      match ChunkType.try_from tb with
      | .error e => .error e
      | .ok ct =>
        if (Chunk.new ct data).checksum ≠ u32_from_be_bytes cb then
          .error "Incoming check does not match computed checksum"
        else if (Chunk.new ct data).length ≠ u32_from_be_bytes lb then
          .error "Incoming length does not match computed length"
        else
          .ok (Chunk.new ct data) := by
  obtain ⟨a0, a1, a2, a3, rfl⟩ := list_eq_four hlb
  obtain ⟨t0, t1, t2, t3, rfl⟩ := list_eq_four htb
  obtain ⟨c0, c1, c2, c3, rfl⟩ := list_eq_four hcb
  have hVlen : ([a0, a1, a2, a3] ++ [t0, t1, t2, t3] ++ data
      ++ [c0, c1, c2, c3] ++ rest).length = 12 + data.length + rest.length := by
    simp [List.length_append]
    omega
  have h1 : read_4_bytes ([a0, a1, a2, a3] ++ [t0, t1, t2, t3] ++ data
      ++ [c0, c1, c2, c3] ++ rest) 0 Chunk.LENGTH_BYTES_LEN
      = .ok [a0, a1, a2, a3] := by
    rw [read_4_bytes_at _ _ _ (by decide) (by decide)
      (by rw [hVlen]; simp only [Chunk.LENGTH_BYTES_LEN]; omega)]
    rfl
  have h2 : read_4_bytes ([a0, a1, a2, a3] ++ [t0, t1, t2, t3] ++ data
      ++ [c0, c1, c2, c3] ++ rest) Chunk.CHUNK_TYPE_BYTES_LEN
      (Chunk.CHUNK_TYPE_BYTES_LEN + Chunk.LENGTH_BYTES_LEN)
      = .ok [t0, t1, t2, t3] := by
    rw [read_4_bytes_at _ _ _ (by decide) (by decide)
      (by rw [hVlen]
          simp only [Chunk.LENGTH_BYTES_LEN, Chunk.CHUNK_TYPE_BYTES_LEN]
          omega)]
    rfl
  have hdrop8 : ([a0, a1, a2, a3] ++ [t0, t1, t2, t3] ++ data
      ++ [c0, c1, c2, c3] ++ rest).drop 8
      = data ++ [c0, c1, c2, c3] ++ rest := rfl
  have hdropcs : ([a0, a1, a2, a3] ++ [t0, t1, t2, t3] ++ data
      ++ [c0, c1, c2, c3] ++ rest).drop (8 + data.length)
      = [c0, c1, c2, c3] ++ rest := by
    rw [← List.drop_drop, hdrop8, List.append_assoc, List.drop_left]
  have h3 : read_4_bytes ([a0, a1, a2, a3] ++ [t0, t1, t2, t3] ++ data
      ++ [c0, c1, c2, c3] ++ rest) (8 + data.length) (8 + data.length + 4)
      = .ok [c0, c1, c2, c3] := by
    rw [read_4_bytes_at _ _ _ (by omega) (by omega) (by omega), hdropcs]
    rfl
  unfold Chunk.try_from
  rw [h1, h2]
  dsimp only [Chunk.CHUNK_TYPE_BYTES_LEN, Chunk.LENGTH_BYTES_LEN]
  cases hct : ChunkType.try_from [t0, t1, t2, t3] with
  | error e => rfl
  | ok ct =>
    rw [hlen]
    dsimp only
    split
    · rename_i hlt
      exact absurd hlt (by omega)
    · rw [show (4 : Nat) + 4 = 8 from rfl, h3]
      dsimp only
      rw [hdrop8, List.append_assoc, List.take_left]
theorem set_append_right (l1 l2 : List Nat) (n : Nat) (a : Nat) :
    (l1 ++ l2).set (l1.length + n) a = l1 ++ l2.set n a := by
  induction l1 with
  | nil => simp
  | cons x xs ih =>
    rw [List.cons_append, List.length_cons,
      show xs.length + 1 + n = (xs.length + n) + 1 by omega,
      List.set_cons_succ, ih, List.cons_append]

theorem getD_append_right (l1 l2 : List Nat) (n : Nat) (d : Nat) :
    (l1 ++ l2).getD (l1.length + n) d = l2.getD n d := by
  induction l1 with
  | nil => simp
  | cons x xs ih =>
    rw [List.cons_append, List.length_cons,
      show xs.length + 1 + n = (xs.length + n) + 1 by omega,
      List.getD_cons_succ, ih]

theorem u32_to_mem_lt_all (x : Nat) : ∀ b ∈ u32_to_be_bytes x, b < 256 :=
  fun _ h => u32_to_mem_lt h

theorem flip_ne {cs : Nat} (j k : Nat) (hj : j < 4) (hk : k < 8) :
    u32_from_be_bytes ((u32_to_be_bytes cs).set j
      ((u32_to_be_bytes cs).getD j 0 ^^^ 2 ^ k)) ≠ cs := by
  intro heq
  have hflip_len : ((u32_to_be_bytes cs).set j
      ((u32_to_be_bytes cs).getD j 0 ^^^ 2 ^ k)).length = 4 := by
    rw [List.length_set]
    rfl
  have hk256 : (2 : Nat) ^ k < 256 := by
    calc (2 : Nat) ^ k < 2 ^ 8 := Nat.pow_lt_pow_right (by norm_num) hk
      _ = 256 := by norm_num
  have hflip_mem : ∀ b ∈ (u32_to_be_bytes cs).set j
      ((u32_to_be_bytes cs).getD j 0 ^^^ 2 ^ k), b < 256 := by
    intro b hbm
    rcases List.mem_or_eq_of_mem_set hbm with hm | hm
    · exact u32_to_mem_lt hm
    · subst hm
      have h1 : (u32_to_be_bytes cs).getD j 0 < 2 ^ 8 := by
        interval_cases j <;>
          simp only [u32_to_be_bytes, List.getD_cons_zero,
            List.getD_cons_succ] <;> omega
      have h2 : (2 : Nat) ^ k < 2 ^ 8 :=
        Nat.pow_lt_pow_right (by norm_num) hk
      exact lt_of_lt_of_eq (Nat.xor_lt_two_pow h1 h2) (by norm_num)
  have hlist := congrArg u32_to_be_bytes heq
  rw [u32_to_from_list hflip_len hflip_mem] at hlist
  interval_cases j <;>
    simp only [u32_to_be_bytes, List.getD_cons_zero, List.getD_cons_succ,
      List.set_cons_zero, List.set_cons_succ, List.cons.injEq,
      and_true, true_and] at hlist <;>
    exact xor_pow_ne hlist
theorem buffer_decomp_tail (value : List Nat) (L : Nat) :
    value = value.take 4 ++ (value.drop 4).take 4 ++ (value.drop 8).take L
      ++ (value.drop (8 + L)).take 4 ++ value.drop (12 + L) := by
  have hD : value.drop (8 + L) = (value.drop (8 + L)).take 4
      ++ value.drop (12 + L) := by
    have h := List.take_append_drop 4 (value.drop (8 + L))
    rw [List.drop_drop, show 8 + L + 4 = 12 + L by omega] at h
    exact h.symm
  calc value = value.take 4 ++ (value.drop 4).take 4 ++ (value.drop 8).take L
      ++ value.drop (8 + L) := buffer_decomp value L
    _ = _ := by
      conv_lhs => rw [hD]
      simp only [List.append_assoc]

/-- C4: whenever the stored big-endian checksum field differs from the
CRC-32 recomputed over the parsed type bytes and payload, parsing fails
with the message "Incoming check does not match computed checksum"; in
particular flipping any single bit (byte j, bit k) of the checksum
field of a serialized chunk makes parsing fail that way. -/
theorem spec_c4_checksum_mismatch :
    (∀ (value : List Nat) (ct : ChunkType),
        12 + u32_from_be_bytes (value.take 4) ≤ value.length →
        ChunkType.try_from ((value.drop 4).take 4) = .ok ct →
        crc32 (ct.bytes
            ++ (value.drop 8).take (u32_from_be_bytes (value.take 4)))
          ≠ u32_from_be_bytes
            ((value.drop (8 + u32_from_be_bytes (value.take 4))).take 4) →
        Chunk.try_from value
          = .error "Incoming check does not match computed checksum") ∧
    (∀ (tb : List Nat) (ct : ChunkType) (data : List Nat) (j k : Nat),
        tb.length = 4 → ChunkType.try_from tb = .ok ct →
        (∀ b ∈ data, b < 256) → data.length < 2 ^ 32 →
        j < 4 → k < 8 →
        Chunk.try_from
            ((Chunk.new ct data).as_bytes.set (8 + data.length + j)
              ((Chunk.new ct data).as_bytes.getD (8 + data.length + j) 0
                ^^^ 2 ^ k))
          = .error "Incoming check does not match computed checksum") := by
  constructor
  · intro value ct hge hct hne
    have hL4 : (value.take 4).length = 4 := by
      rw [List.length_take]; omega
    have htb4 : ((value.drop 4).take 4).length = 4 := by
      rw [List.length_take, List.length_drop]; omega
    have hdata_len :
        ((value.drop 8).take (u32_from_be_bytes (value.take 4))).length
          = u32_from_be_bytes (value.take 4) := by
      rw [List.length_take, List.length_drop]; omega
    have hcb4 :
        ((value.drop (8 + u32_from_be_bytes (value.take 4))).take 4).length
          = 4 := by
      rw [List.length_take, List.length_drop]; omega
    conv_lhs =>
      rw [buffer_decomp_tail value (u32_from_be_bytes (value.take 4))]
    rw [try_from_layout_tail _ _ _ _ _ hL4 htb4 hcb4 hdata_len.symm, hct]
    dsimp only
    rw [chunk_new_checksum, if_pos hne]
  · intro tb ct data j k htb4 hct hdb h32 hj hk
    have hctb : ct.bytes = tb := by
      simpa [ChunkType.bytes] using chunktype_ok_bytes hct
    have hctb4 : ct.bytes.length = 4 := by
      rw [hctb]; exact htb4
    have hclen : (Chunk.new ct data).length = data.length := by
      rw [chunk_new_length]; exact Nat.mod_eq_of_lt h32
    have hbytes : (Chunk.new ct data).as_bytes
        = u32_to_be_bytes data.length ++ ct.bytes ++ data
          ++ u32_to_be_bytes (crc32 (ct.bytes ++ data)) := by
      simp only [Chunk.as_bytes, chunk_new_chunk_type, chunk_new_data,
        chunk_new_checksum, hclen]
    have hXlen : (u32_to_be_bytes data.length ++ ct.bytes ++ data).length
        = 8 + data.length := by
      simp [List.length_append, hctb4, u32_to_len]
      omega
    have hsetfold : ∀ (a : Nat),
        (u32_to_be_bytes data.length ++ ct.bytes ++ data
          ++ u32_to_be_bytes (crc32 (ct.bytes ++ data))).set
            (8 + data.length + j) a
        = u32_to_be_bytes data.length ++ ct.bytes ++ data
          ++ (u32_to_be_bytes (crc32 (ct.bytes ++ data))).set j a := by
      intro a
      rw [← hXlen, set_append_right]
    have hgetfold :
        (u32_to_be_bytes data.length ++ ct.bytes ++ data
          ++ u32_to_be_bytes (crc32 (ct.bytes ++ data))).getD
            (8 + data.length + j) 0
        = (u32_to_be_bytes (crc32 (ct.bytes ++ data))).getD j 0 := by
      rw [← hXlen, getD_append_right]
    rw [hbytes, hsetfold, hgetfold]
    rw [try_from_layout _ _ _ _ (u32_to_len _) hctb4
      (by rw [List.length_set]; exact u32_to_len _) (u32_from_to h32)]
    have hTF : ChunkType.try_from ct.bytes = .ok ct := by
      rw [hctb]; exact hct
    rw [hTF]
    dsimp only
    rw [chunk_new_checksum, if_pos (Ne.symm (flip_ne j k hj hk))]
theorem read_4_bytes_ne_error (v : List Nat) (s t : Nat) (e : String) :
    read_4_bytes v s t ≠ .error e := by
  unfold read_4_bytes
  split
  · simp
  · split <;> simp

theorem read_4_bytes_ok_inv {v l : List Nat} {s t : Nat}
    (h : read_4_bytes v s t = .ok l) :
    l = (v.drop s).take 4 ∧ s ≤ t ∧ t ≤ v.length ∧ t - s = 4 := by
  unfold read_4_bytes at h
  split at h
  · exact absurd h (by simp)
  · rename_i h4
    rw [not_not] at h4
    split at h
    · rename_i hbnd
      cases h
      exact ⟨by rw [h4], hbnd.1, hbnd.2, h4⟩
    · exact absurd h (by simp)

theorem try_from_cases (value : List Nat) (hb : ∀ b ∈ value, b < 256) :
    Chunk.try_from value = .panic ∨
    Chunk.try_from value = .error "Invalid chunk payload" ∨
    Chunk.try_from value
      = .error "Incoming check does not match computed checksum" ∨
    ∃ ct data, data.length < 2 ^ 32
      ∧ Chunk.try_from value = .ok (Chunk.new ct data) := by
  unfold Chunk.try_from
  dsimp only [Chunk.LENGTH_BYTES_LEN, Chunk.CHUNK_TYPE_BYTES_LEN]
  cases h1 : read_4_bytes value 0 4 with
  | panic => exact Or.inl rfl
  | error e => exact absurd h1 (read_4_bytes_ne_error _ _ _ _)
  | ok lb =>
    dsimp only
    cases h2 : read_4_bytes value 4 (4 + 4) with
    | panic => exact Or.inl rfl
    | error e => exact absurd h2 (read_4_bytes_ne_error _ _ _ _)
    | ok tb =>
      dsimp only
      cases h3 : ChunkType.try_from tb with
      | error e =>
        refine Or.inr (Or.inl ?_)
        rw [chunktype_error_msg h3]
      | ok ct =>
        dsimp only
        split
        · exact Or.inl rfl
        · rename_i hge
          cases h4 : read_4_bytes value (4 + 4 + u32_from_be_bytes lb)
              (4 + 4 + u32_from_be_bytes lb + 4) with
          | panic => exact Or.inl rfl
          | error e => exact absurd h4 (read_4_bytes_ne_error _ _ _ _)
          | ok cb =>
            dsimp only
            split
            · exact Or.inr (Or.inr (Or.inl rfl))
            · rename_i hcs
              obtain ⟨hlb_eq, _, hlb_le, _⟩ := read_4_bytes_ok_inv h1
              have hlb4 : lb.length = 4 := by
                rw [hlb_eq, List.length_take, List.length_drop]
                omega
              have hL32 : u32_from_be_bytes lb < 2 ^ 32 :=
                u32_from_lt_list hlb4 (by
                  intro b hbm
                  rw [hlb_eq] at hbm
                  exact hb b (List.mem_of_mem_drop (List.mem_of_mem_take hbm)))
              have hdl : ((value.drop (4 + 4)).take
                  (u32_from_be_bytes lb)).length = u32_from_be_bytes lb := by
                rw [List.length_take, List.length_drop]
                omega
              rw [if_neg (by
                rw [not_ne_iff, chunk_new_length, hdl]
                exact Nat.mod_eq_of_lt hL32)]
              exact Or.inr (Or.inr (Or.inr ⟨ct,
                (value.drop (4 + 4)).take (u32_from_be_bytes lb),
                by rw [hdl]; exact hL32, rfl⟩))
/-- C9: on every byte buffer (any list of u8 values), parsing never
returns the LengthMismatch error "Incoming length does not match
computed length": the recomputed length always equals the length field
whenever the final comparison is reached, so that branch is dead. -/
theorem spec_c9_length_check_unreachable (value : List Nat)
    (hb : ∀ b ∈ value, b < 256) :
    Chunk.try_from value
      ≠ .error "Incoming length does not match computed length" := by
  rcases try_from_cases value hb with h | h | h | ⟨ct, data, _, h⟩ <;>
    rw [h] <;> simp

/-- C9 witness: the fixture buffer never produces the length error. -/
theorem spec_c9_witness :
    Chunk.try_from rustBuf
      ≠ .error "Incoming length does not match computed length" :=
  spec_c9_length_check_unreachable rustBuf (by decide)

/-- C3 (amended): for every chunk built by `Chunk::new` from a payload
shorter than 2 ^ 32 bytes, and for every chunk produced by successful
parsing of a u8 buffer, the stored length equals the payload byte count
and the stored checksum equals CRC-32/ISO-HDLC over the 4 type bytes
followed by the payload (the length field is never part of the CRC
input). The size precondition on `Chunk::new` is forced by
`spec_c3_counterexample`. -/
theorem spec_c3_invariants :
    (∀ (ct : ChunkType) (data : List Nat), data.length < 2 ^ 32 →
      (Chunk.new ct data).length = data.length ∧
      (Chunk.new ct data).checksum = crc32 (ct.bytes ++ data)) ∧
    (∀ (value : List Nat) (c : Chunk), (∀ b ∈ value, b < 256) →
      Chunk.try_from value = .ok c →
      c.length = c.data.length ∧
      c.checksum = crc32 (c.chunk_type.bytes ++ c.data)) := by
  constructor
  · intro ct data h32
    exact ⟨by rw [chunk_new_length]; exact Nat.mod_eq_of_lt h32,
      chunk_new_checksum ct data⟩
  · intro value c hb hok
    rcases try_from_cases value hb with h | h | h | ⟨ct, data, h32, h⟩ <;>
      rw [h] at hok
    · cases hok
    · cases hok
    · cases hok
    · injection hok with hc
      subst hc
      refine ⟨?_, ?_⟩
      · rw [chunk_new_length, chunk_new_data]
        exact Nat.mod_eq_of_lt h32
      · rw [chunk_new_checksum, chunk_new_chunk_type, chunk_new_data]

set_option maxRecDepth 10000 in
/-- C2 witness: the RuSt fixture serializes back to its buffer, and an
empty-payload chunk round-trips through parse. -/
theorem spec_c2_witness :
    (Chunk.new rustType secretMsg).as_bytes = rustBuf ∧
    Chunk.try_from (Chunk.new rustType []).as_bytes
      = .ok (Chunk.new rustType []) :=
  ⟨spec_c2_roundtrip.1 rustBuf (Chunk.new rustType secretMsg) (by decide)
      (by decide) (by decide),
   spec_c2_roundtrip.2 [82, 117, 83, 116] rustType [] (by decide) (by decide)
      (by decide) (by decide)⟩

set_option maxRecDepth 10000 in
/-- C4 witness: the fixture buffer with checksum off by one fails with
the checksum message, and flipping bit 0 of checksum byte 0 of a
serialized empty-payload chunk fails the same way. -/
theorem spec_c4_witness :
    Chunk.try_from (u32_to_be_bytes 42 ++ [82, 117, 83, 116] ++ secretMsg
        ++ u32_to_be_bytes 2882656333)
      = .error "Incoming check does not match computed checksum" ∧
    Chunk.try_from ((Chunk.new rustType []).as_bytes.set 8
        ((Chunk.new rustType []).as_bytes.getD 8 0 ^^^ 1))
      = .error "Incoming check does not match computed checksum" :=
  ⟨spec_c4_checksum_mismatch.1 (u32_to_be_bytes 42 ++ [82, 117, 83, 116]
        ++ secretMsg ++ u32_to_be_bytes 2882656333) rustType (by decide)
      (by decide) (by decide),
   spec_c4_checksum_mismatch.2 [82, 117, 83, 116] rustType [] 0 0
      (by decide) (by decide) (by decide) (by decide) (by decide)
      (by decide)⟩

set_option maxRecDepth 10000 in
/-- C3 witness: both invariants hold on the RuSt fixture, built fresh
and recovered by parsing its buffer. -/
theorem spec_c3_witness :
    ((Chunk.new rustType secretMsg).length = secretMsg.length ∧
      (Chunk.new rustType secretMsg).checksum
        = crc32 (rustType.bytes ++ secretMsg)) ∧
    ((Chunk.new rustType secretMsg).length
        = (Chunk.new rustType secretMsg).data.length ∧
      (Chunk.new rustType secretMsg).checksum
        = crc32 ((Chunk.new rustType secretMsg).chunk_type.bytes
          ++ (Chunk.new rustType secretMsg).data)) :=
  ⟨spec_c3_invariants.1 rustType secretMsg (by decide),
   spec_c3_invariants.2 rustBuf (Chunk.new rustType secretMsg) (by decide)
      (by decide)⟩

/-- C6 witness: the flag characterization instantiated at "RuSt". -/
theorem spec_c6_witness :
    (rustType.is_critical = true ↔
      (rustType.bytes.getD 0 0).testBit 5 = false) ∧
    (rustType.is_public = true ↔
      (rustType.bytes.getD 1 0).testBit 5 = false) ∧
    (rustType.is_reserved_bit_valid = true ↔
      (rustType.bytes.getD 2 0).testBit 5 = false) ∧
    (rustType.is_safe_to_copy = true ↔
      (rustType.bytes.getD 3 0).testBit 5 = true) ∧
    rustType.is_valid = rustType.is_reserved_bit_valid :=
  spec_c6_flag_bits rustType
